import Mathlib

/-!
Shallow embedding of the cashu-redeem-api redemption core
(services/cashu.js, services/lightning.js, services/redemption.js and the
/api/redeem route of server.js).

JavaScript numbers are modelled as exact integers (`Nat`/`Int`); all the
amounts handled by the service are small integers of satoshis for which
IEEE-754 double arithmetic is exact, and `Math.ceil(amount * 0.02)` is
modelled as the exact rational ceiling.  Network calls (mint, LNURLp
provider) are modelled as oracle fields of `RedeemEnv`; every network call
the code would perform is recorded as a `NetCall` event in the run trace.
-/

namespace CashuRedeem

/-- Events, one per outbound network call of the redemption flow. -/
inductive NetCall where
  | spendCheck : NetCall
  | lnurlpFetch : NetCall
  | invoiceRequest : Int → NetCall
  | meltQuote : NetCall
  | meltSubmit : NetCall
  deriving DecidableEq, Repr

/-- JavaScript whitespace (the code points matched by `\s` and removed by
`String.prototype.trim`). -/
def isJsSpace (c : Char) : Bool :=
  c.toNat ∈ [0x09, 0x0A, 0x0B, 0x0C, 0x0D, 0x20, 0xA0, 0x1680,
              0x2028, 0x2029, 0x202F, 0x205F, 0x3000, 0xFEFF]
  || (0x2000 ≤ c.toNat && c.toNat ≤ 0x200A)

/-- Model of JavaScript `String.prototype.trim`. -/
def jsTrim (s : String) : String :=
  String.mk (((s.toList.dropWhile isJsSpace).reverse.dropWhile isJsSpace).reverse)

/-- Model of JavaScript `s.substring 0 n` (prefix of length `n`). -/
def jsTake (s : String) (n : Nat) : String :=
  String.mk (s.toList.take n)

/-- Substring scan over character lists (helper for `strContains`). -/
def subScan (pat : List Char) : List Char → Bool
  | [] => pat.isEmpty
  | c :: rest => List.isPrefixOf pat (c :: rest) || subScan pat rest

/-- Model of JavaScript `String.prototype.includes`. -/
def strContains (s pat : String) : Bool :=
  subScan pat.toList s.toList

/-- Model of JavaScript `String.prototype.split` at a single separator
character (returns the list of fields, empty fields included). -/
def splitAtChar (sep : Char) : List Char → List (List Char)
  | [] => [[]]
  | c :: rest =>
      let r := splitAtChar sep rest
      if c = sep then [] :: r
      else match r with
        | [] => [[c]]
        | h :: tl => (c :: h) :: tl

/-- Model of JavaScript `String.prototype.toLowerCase` (ASCII range). -/
def jsToLower (s : String) : String :=
  String.mk (s.toList.map Char.toLower)

/-- JavaScript truthiness of an optional string field (absent or empty is falsy). -/
def truthyOptStr : Option String → Bool
  | some s => s != ""
  | none => false

/-- JavaScript `a || b` where `a` is an optional string field and `b` an
optional string: returns `b` when `a` is absent or empty. -/
def jsOrStr (a b : Option String) : Option String :=
  match a with
  | some s => if s != "" then some s else b
  | none => b

/-- JavaScript `a || b` where `a` is an optional numeric field (0 and absent
are falsy). -/
def jsOrInt (a : Option Int) (b : Int) : Int :=
  match a with
  | some v => if v != 0 then v else b
  | none => b

/-! ### services/cashu.js -/

/-- Result shape of `cashuService.parseToken` (mint, totalAmount, numProofs,
denominations, format). -/
structure ParsedToken where
  mint : String
  totalAmount : Nat
  numProofs : Nat
  denominations : List Nat
  format : String
  deriving DecidableEq, Repr

/-- CashuService.calculateFee: `Math.max(1, Math.ceil(amount * 0.02))`.
The double product `amount * 0.02` is exact for amounts in range; its
ceiling is embedded as the integer ceiling of `amount * 2 / 100`
(`calculateFee_ceil` below proves this equal to the rational ceiling). -/
def calculateFee (amount : Nat) : Nat :=
  let fee := (amount * 2 + 99) / 100
  max 1 fee

/-- A melt response from the mint, as inspected by `CashuService.meltToken`
(fields may be absent, hence `Option`). -/
structure MeltResponse where
  paid : Option Bool
  payment_preimage : Option String
  preimage : Option String
  state : Option String
  fee_paid : Option Int
  fee : Option Int
  deriving DecidableEq, Repr

/-- The multi-signal payment check of `CashuService.meltToken`:
`meltResponse.paid === true || meltResponse.payment_preimage ||
meltResponse.preimage || (meltResponse.state && meltResponse.state === 'PAID')`. -/
def classifyMeltPaid (r : MeltResponse) : Bool :=
  (r.paid == some true)
  || truthyOptStr r.payment_preimage
  || truthyOptStr r.preimage
  || (truthyOptStr r.state && r.state == some "PAID")

/-- A melt quote from the mint (`createMeltQuote` result fields used). -/
structure MeltQuote where
  amount : Int
  fee_reserve : Int
  quote : String
  deriving DecidableEq, Repr

/-- Value returned by `CashuService.meltToken` on success. -/
structure MeltResult where
  paid : Bool
  preimage : Option String
  amount : Int
  fee : Int
  actualFee : Int
  netAmount : Int
  quote : String
  deriving DecidableEq, Repr

/-- The error-rewrapping of `meltToken`'s catch block: cashu-specific errors
are re-thrown verbatim, everything else is wrapped. -/
def wrapMeltError (e : String) : String :=
  if strContains e "Insufficient funds"
     || strContains e "Payment failed"
     || strContains e "Quote not found" then e
  else "Melt operation failed: " ++ e

/-! ### services/lightning.js -/

/-- Startup configuration consumed by the services (ALLOW_REDEEM_DOMAINS,
DEFAULT_LIGHTNING_ADDRESS). -/
structure Config where
  allowedDomains : List String
  defaultLightningAddress : Option String
  deriving DecidableEq, Repr

/-- LightningService.getDefaultLightningAddress:
`this.defaultLightningAddress || null`. -/
def getDefaultLightningAddress (cfg : Config) : Option String :=
  match cfg.defaultLightningAddress with
  | some s => if s != "" then some s else none
  | none => none

/-- LightningService.getLightningAddressToUse: provided (trimmed, if truthy)
or the configured default; throws when neither is available. -/
def getLightningAddressToUse (cfg : Config) (provided : Option String) :
    Except String String :=
  match provided with
  | some p =>
      if p != "" && jsTrim p != "" then .ok (jsTrim p)
      else
        match getDefaultLightningAddress cfg with
        | some d => .ok d
        | none => .error "No Lightning address provided and no default Lightning address configured"
  | none =>
      match getDefaultLightningAddress cfg with
      | some d => .ok d
      | none => .error "No Lightning address provided and no default Lightning address configured"

/-- A character allowed in the local part and in the domain labels of the
address regex: anything that is not whitespace and not `@`. -/
def emailCharOk (c : Char) : Bool :=
  !isJsSpace c && c != '@'

/-- True when the string has a `.` that is neither its first nor its last
character (the `[^\s@]+\.[^\s@]+` shape, given all characters are allowed). -/
def hasInteriorDot (s : String) : Bool :=
  match s.toList with
  | [] => false
  | _ :: rest => (rest.dropLast).contains '.'

/-- LightningService.validateLightningAddress: the regex
`/^[^\s@]+@[^\s@]+\.[^\s@]+$/` (a permissive email-shaped gate). -/
def validateLightningAddress (s : String) : Bool :=
  match splitAtChar '@' s.toList with
  | [loc, dom] =>
      !loc.isEmpty && loc.all emailCharOk
      && dom.all emailCharOk && hasInteriorDot (String.mk dom)
  | _ => false

/-- LightningService.isDomainAllowed: empty list or wildcard allows all,
otherwise membership of the lowercased candidate in the configured list. -/
def isDomainAllowed (cfg : Config) (domain : String) : Bool :=
  if cfg.allowedDomains.isEmpty then true
  else if cfg.allowedDomains.contains "*" then true
  else cfg.allowedDomains.contains (jsToLower domain)

/-- LightningService.parseLightningAddress: format gate, split at `@`,
then the domain allow-list gate. -/
def parseLightningAddress (cfg : Config) (lightningAddress : String) :
    Except String (String × String) :=
  if !validateLightningAddress lightningAddress then
    .error "Invalid Lightning address format"
  else
    let parts := (splitAtChar '@' lightningAddress.toList).map String.mk
    let username := (parts.get? 0).getD ""
    let domain := (parts.get? 1).getD ""
    if !isDomainAllowed cfg domain then
      .error ("Domain " ++ domain ++ " is not allowed for redemption")
    else .ok (username, domain)

/-- LightningService.getLNURLpEndpoint. -/
def getLNURLpEndpoint (cfg : Config) (lightningAddress : String) :
    Except String String :=
  match parseLightningAddress cfg lightningAddress with
  | .error e => .error e
  | .ok (username, domain) =>
      .ok ("https://" ++ domain ++ "/.well-known/lnurlp/" ++ username)

/-- The fields of an LNURLp response used by the resolver (after `parseInt`
of the sendable bounds). -/
structure LnurlpData where
  callback : String
  minSendable : Int
  maxSendable : Int
  deriving DecidableEq, Repr

/-- LightningService.satsToMillisats. -/
def satsToMillisats (sats : Int) : Int := sats * 1000

/-- LightningService.millisatsToSats (`Math.floor(msats / 1000)`). -/
def millisatsToSats (msats : Int) : Int := Int.fdiv msats 1000

/-- LightningService.validateAmount:
`amountMsats >= minSendable && amountMsats <= maxSendable`. -/
def validateAmount (amount : Int) (lnurlpResponse : LnurlpData) : Bool :=
  let amountMsats := satsToMillisats amount
  amountMsats ≥ lnurlpResponse.minSendable && amountMsats ≤ lnurlpResponse.maxSendable

/-! ### Network oracles

The outcomes of the external services (mint, LNURLp provider) are supplied
as oracle fields; the redemption logic itself is the code under test. -/

/-- Oracles for the external collaborators of one redemption run. -/
structure RedeemEnv where
  /-- sha256-prefix fingerprint, `RedemptionService.generateTokenHash`. -/
  hash : String → String
  /-- outcome of `cashuService.parseToken token` (pure decode). -/
  parseToken : Except String ParsedToken
  /-- outcome of `cashuService.checkTokenSpendable token`: the `spendable`
  list on success, the thrown message on failure. -/
  spendCheck : Except String (List String)
  /-- outcome of `fetchLNURLpResponse` for the well-known URL. -/
  lnurlp : Except String LnurlpData
  /-- outcome of `getInvoice callback msats comment`, keyed by the requested
  millisatoshi amount: the bolt11 string or the thrown message. -/
  getInvoice : Int → Except String String
  /-- outcome of `wallet.createMeltQuote bolt11`. -/
  meltQuote : Except String MeltQuote
  /-- outcome of `wallet.meltTokens quote proofs`. -/
  meltSubmit : Except String MeltResponse

/-- Value returned by `LightningService.resolveInvoice` on success (fields
used by the orchestrator). -/
structure InvoiceData where
  bolt11 : String
  amount : Int
  amountMsats : Int
  domain : String
  deriving DecidableEq, Repr

/-- The out-of-range message thrown by `resolveInvoice`. -/
def amountRangeMsg (amount : Int) (l : LnurlpData) : String :=
  "Amount " ++ toString amount ++ " sats is outside allowed range: "
    ++ toString (millisatsToSats l.minSendable) ++ "-"
    ++ toString (millisatsToSats l.maxSendable) ++ " sats"

/-- LightningService.resolveInvoice: endpoint construction (pure, no
network), LNURLp fetch, bounds check, invoice request.  Returns the result
together with the trace of network calls it performed; every thrown message
is wrapped with the resolution-failed prefix as in the source. -/
def resolveInvoice (cfg : Config) (env : RedeemEnv) (lightningAddress : String)
    (amount : Int) : Except String InvoiceData × List NetCall :=
  match getLNURLpEndpoint cfg lightningAddress with
  | .error e => (.error ("Lightning address resolution failed: " ++ e), [])
  | .ok _lnurlpUrl =>
    match env.lnurlp with
    | .error e =>
        (.error ("Lightning address resolution failed: " ++ e), [NetCall.lnurlpFetch])
    | .ok lnurlpResponse =>
      if !validateAmount amount lnurlpResponse then
        (.error ("Lightning address resolution failed: " ++ amountRangeMsg amount lnurlpResponse),
         [NetCall.lnurlpFetch])
      else
        let amountMsats := satsToMillisats amount
        match env.getInvoice amountMsats with
        | .error e =>
            (.error ("Lightning address resolution failed: " ++ e),
             [NetCall.lnurlpFetch, NetCall.invoiceRequest amountMsats])
        | .ok bolt11 =>
            let domain := match parseLightningAddress cfg lightningAddress with
              | .ok (_, d) => d
              | .error _ => ""
            (.ok { bolt11 := bolt11, amount := amount, amountMsats := amountMsats,
                   domain := domain },
             [NetCall.lnurlpFetch, NetCall.invoiceRequest amountMsats])

/-- CashuService.meltToken for an already parsed token: melt quote, funds
check against the declared total, melt submission, multi-signal payment
check and actual-fee extraction.  Returns the result together with the
trace of network calls. -/
def meltToken (env : RedeemEnv) (parsed : ParsedToken) :
    Except String MeltResult × List NetCall :=
  match env.meltQuote with
  | .error e => (.error (wrapMeltError e), [NetCall.meltQuote])
  | .ok meltQuote =>
    let expectedFee : Int := calculateFee parsed.totalAmount
    let totalRequired := meltQuote.amount + meltQuote.fee_reserve
    if totalRequired > (parsed.totalAmount : Int) then
      (.error ("Insufficient funds. Required: " ++ toString totalRequired
        ++ " sats (including " ++ toString meltQuote.fee_reserve
        ++ " sats fee), Available: " ++ toString parsed.totalAmount ++ " sats"),
       [NetCall.meltQuote])
    else
      match env.meltSubmit with
      | .error e => (.error (wrapMeltError e), [NetCall.meltQuote, NetCall.meltSubmit])
      | .ok meltResponse =>
        let paymentSuccessful := classifyMeltPaid meltResponse
        let actualFeeCharged :=
          jsOrInt meltResponse.fee_paid (jsOrInt meltResponse.fee meltQuote.fee_reserve)
        let actualNetAmount := (parsed.totalAmount : Int) - actualFeeCharged
        (.ok { paid := paymentSuccessful,
               preimage := jsOrStr meltResponse.payment_preimage meltResponse.preimage,
               amount := meltQuote.amount,
               fee := actualFeeCharged,
               actualFee := expectedFee,
               netAmount := actualNetAmount,
               quote := meltQuote.quote },
         [NetCall.meltQuote, NetCall.meltSubmit])

/-! ### services/redemption.js -/

/-- A redemption attempt record stored in the ledger (the fields written by
`storeRedemption` / `updateRedemption`; fields not yet computed are `none`).
Timestamps are integer milliseconds. -/
structure RedemptionRecord where
  status : String
  token : String
  tokenHash : String
  lightningAddress : String
  usingDefaultAddress : Bool
  amount : Option Int := none
  mint : Option String := none
  numProofs : Option Nat := none
  expectedFee : Option Int := none
  netAmountAfterFee : Option Int := none
  format : Option String := none
  bolt11 : Option String := none
  domain : Option String := none
  invoiceAmount : Option Int := none
  paid : Bool
  preimage : Option String := none
  fee : Option Int := none
  actualFee : Option Int := none
  netAmount : Option Int := none
  paidAt : Option Int := none
  error : Option String
  createdAt : Int
  updatedAt : Int
  deriving DecidableEq, Repr

/-- Association list lookup (first match), modelling `Map.get`. -/
def getAssoc {α : Type} : List (String × α) → String → Option α
  | [], _ => none
  | (k, v) :: rest, key => if k = key then some v else getAssoc rest key

/-- Association list update, modelling `Map.set` (replace or append). -/
def setAssoc {α : Type} : List (String × α) → String → α → List (String × α)
  | [], key, v => [(key, v)]
  | (k, w) :: rest, key, v =>
      if k = key then (key, v) :: rest else (k, w) :: setAssoc rest key v

/-- The in-memory state of RedemptionService: `this.redemptions` and
`this.tokenHashes`. -/
structure Ledger where
  redemptions : List (String × RedemptionRecord)
  tokenHashes : List (String × String)
  deriving DecidableEq, Repr

/-- RedemptionService.storeRedemption (sets both timestamps to now). -/
def storeRedemption (st : Ledger) (redeemId : String) (rec : RedemptionRecord)
    (now : Int) : Ledger :=
  { st with redemptions :=
      setAssoc st.redemptions redeemId { rec with createdAt := now, updatedAt := now } }

/-- RedemptionService.updateRedemption: merge the given field updates into
the existing record (no-op when the id is unknown) and refresh `updatedAt`. -/
def updateRedemption (st : Ledger) (redeemId : String)
    (upd : RedemptionRecord → RedemptionRecord) (now : Int) : Ledger :=
  match getAssoc st.redemptions redeemId with
  | some rec =>
      { st with redemptions :=
          setAssoc st.redemptions redeemId { upd rec with updatedAt := now } }
  | none => st

/-- RedemptionService.getRedemption. -/
def getRedemption (st : Ledger) (redeemId : String) : Option RedemptionRecord :=
  getAssoc st.redemptions redeemId

/-- RedemptionService.getRedemptionByTokenHash. -/
def getRedemptionByTokenHash (st : Ledger) (tokenHash : String) :
    Option RedemptionRecord :=
  match getAssoc st.tokenHashes tokenHash with
  | some redeemId => getRedemption st redeemId
  | none => none

/-- RedemptionService.checkExistingRedemption: fingerprint the token and
look it up through the fingerprint index. -/
def checkExistingRedemption (env : RedeemEnv) (st : Ledger) (token : String) :
    Option RedemptionRecord :=
  getRedemptionByTokenHash st (env.hash token)

/-- Value returned by `RedemptionService.performRedemption` (success shape
fields are `none` on the failure shape and conversely). -/
structure RedeemResult where
  success : Bool
  redeemId : String
  paid : Option Bool := none
  amount : Option Int := none
  invoiceAmount : Option Int := none
  toAddr : Option String := none
  usingDefaultAddress : Option Bool := none
  fee : Option Int := none
  actualFee : Option Int := none
  netAmount : Option Int := none
  preimage : Option String := none
  mint : Option String := none
  format : Option String := none
  error : Option String := none
  deriving DecidableEq, Repr

/-- One full run of `performRedemption`: its return value, the final ledger,
the trace of network calls made, and the sequence of status values written
to the attempt record. -/
structure RunOut where
  result : RedeemResult
  ledger : Ledger
  calls : List NetCall
  statuses : List String
  deriving DecidableEq, Repr

/-- The `isUsingDefault` flag of `performRedemption`:
`!lightningAddress || !lightningAddress.trim()`. -/
def usingDefaultFlag (lightningAddress : Option String) : Bool :=
  match lightningAddress with
  | none => true
  | some s => s == "" || jsTrim s == ""

/-- The catch block of `performRedemption`: mark the attempt failed with the
thrown message (a no-op on the ledger when the attempt was never stored). -/
def markFailed (st : Ledger) (redeemId : String) (msg : String) (now : Int) : Ledger :=
  updateRedemption st redeemId
    (fun r => { r with status := "failed", paid := false, error := some msg }) now

/-- Failure return of `performRedemption` (catch block plus the
`success:false` response). -/
def failOut (st : Ledger) (redeemId : String) (msg : String) (now : Int)
    (calls : List NetCall) (statuses : List String) : RunOut :=
  { result := { success := false, redeemId := redeemId, error := some msg },
    ledger := markFailed st redeemId msg now,
    calls := calls, statuses := statuses }

/-- RedemptionService.performRedemption: the redemption orchestrator.
Mirrors the source step for step: address selection, initial store and
fingerprint mapping, token parse, fee and net-amount computation with the
insufficient-value gate, advisory spendability check, invoice resolution
for the net amount, melt, and multi-signal settlement classification.
`redeemId` models the freshly generated uuid and `now` the clock. -/
def performRedemption (cfg : Config) (env : RedeemEnv) (st : Ledger)
    (redeemId : String) (now : Int) (token : String)
    (lightningAddress : Option String) : RunOut :=
  let tokenHash := env.hash token
  match getLightningAddressToUse cfg lightningAddress with
  | .error msg => failOut st redeemId msg now [] []
  | .ok lightningAddressToUse =>
    let isUsingDefault := usingDefaultFlag lightningAddress
    let st1 := storeRedemption st redeemId
      { status := "processing",
        token := jsTake token 50 ++ "...",
        tokenHash := tokenHash,
        lightningAddress := lightningAddressToUse,
        usingDefaultAddress := isUsingDefault,
        amount := none, paid := false, error := none,
        createdAt := now, updatedAt := now } now
    let st2 := { st1 with tokenHashes := setAssoc st1.tokenHashes tokenHash redeemId }
    let st3 := updateRedemption st2 redeemId (fun r => { r with status := "parsing_token" }) now
    match env.parseToken with
    | .error msg => failOut st3 redeemId msg now [] ["processing", "parsing_token", "failed"]
    | .ok tokenData =>
      let expectedFee : Int := calculateFee tokenData.totalAmount
      let netAmountAfterFee : Int := (tokenData.totalAmount : Int) - expectedFee
      if netAmountAfterFee ≤ 0 then
        failOut st3 redeemId
          ("Token amount (" ++ toString tokenData.totalAmount
            ++ " sats) is insufficient to cover the minimum fee ("
            ++ toString expectedFee ++ " sats)")
          now [] ["processing", "parsing_token", "failed"]
      else
        let st4 := updateRedemption st3 redeemId (fun r =>
          { r with amount := some (tokenData.totalAmount : Int),
                   mint := some tokenData.mint,
                   numProofs := some tokenData.numProofs,
                   expectedFee := some expectedFee,
                   netAmountAfterFee := some netAmountAfterFee,
                   format := some tokenData.format }) now
        let st5 := updateRedemption st4 redeemId
          (fun r => { r with status := "checking_spendability" }) now
        let spendOutcome : Option String :=
          match env.spendCheck with
          | .ok spendable =>
              if spendable.isEmpty then
                some "This token has already been spent and cannot be redeemed again"
              else none
          | .error e =>
              if strContains e "not spendable" || strContains e "already been used"
                 || strContains e "invalid proofs" || strContains e "422" then
                some "This token has already been spent and cannot be redeemed again"
              else none
        match spendOutcome with
        | some msg =>
            failOut st5 redeemId msg now [NetCall.spendCheck]
              ["processing", "parsing_token", "checking_spendability", "failed"]
        | none =>
          let st6 := updateRedemption st5 redeemId
            (fun r => { r with status := "resolving_invoice" }) now
          match resolveInvoice cfg env lightningAddressToUse netAmountAfterFee with
          | (.error msg, rcalls) =>
              failOut st6 redeemId msg now (NetCall.spendCheck :: rcalls)
                ["processing", "parsing_token", "checking_spendability",
                 "resolving_invoice", "failed"]
          | (.ok invoiceData, rcalls) =>
            let st7 := updateRedemption st6 redeemId (fun r =>
              { r with bolt11 := some (jsTake invoiceData.bolt11 50 ++ "..."),
                       domain := some invoiceData.domain,
                       invoiceAmount := some netAmountAfterFee }) now
            let st8 := updateRedemption st7 redeemId
              (fun r => { r with status := "melting_token" }) now
            match meltToken env tokenData with
            | (.error msg, mcalls) =>
                failOut st8 redeemId msg now (NetCall.spendCheck :: rcalls ++ mcalls)
                  ["processing", "parsing_token", "checking_spendability",
                   "resolving_invoice", "melting_token", "failed"]
            | (.ok meltResult, mcalls) =>
              let paymentSuccessful := meltResult.paid || truthyOptStr meltResult.preimage
              let finalStatus := if paymentSuccessful then "paid" else "failed"
              let st9 := updateRedemption st8 redeemId (fun r =>
                { r with status := finalStatus,
                         paid := paymentSuccessful,
                         preimage := meltResult.preimage,
                         fee := some meltResult.fee,
                         actualFee := some meltResult.actualFee,
                         netAmount := some meltResult.netAmount,
                         paidAt := if paymentSuccessful then some now else none }) now
              { result := { success := true, redeemId := redeemId,
                            paid := some paymentSuccessful,
                            amount := some (tokenData.totalAmount : Int),
                            invoiceAmount := some netAmountAfterFee,
                            toAddr := some lightningAddressToUse,
                            usingDefaultAddress := some isUsingDefault,
                            fee := some meltResult.fee,
                            actualFee := some meltResult.actualFee,
                            netAmount := some meltResult.netAmount,
                            preimage := meltResult.preimage,
                            mint := some tokenData.mint,
                            format := some tokenData.format },
                ledger := st9,
                calls := NetCall.spendCheck :: rcalls ++ mcalls,
                statuses := ["processing", "parsing_token", "checking_spendability",
                             "resolving_invoice", "melting_token", finalStatus] }

/-- Value returned by `RedemptionService.validateRedemptionRequest`. -/
structure ValidationOut where
  valid : Bool
  errors : List String
  lightningAddressToUse : Option String
  deriving DecidableEq, Repr

/-- RedemptionService.validateRedemptionRequest: token presence, address
selection and format, duplicate-redemption lookup, and a parse attempt when
no earlier error occurred. -/
def validateRedemptionRequest (cfg : Config) (env : RedeemEnv) (st : Ledger)
    (token : Option String) (lightningAddress : Option String) : ValidationOut :=
  let tokenTruthy := match token with | some t => t != "" | none => false
  let errors0 : List String :=
    if !tokenTruthy then ["Token is required and must be a string"] else []
  let stepAddr :=
    match getLightningAddressToUse cfg lightningAddress with
    | .ok a =>
        if !validateLightningAddress a then
          (errors0 ++ ["Invalid Lightning address format"], some a)
        else (errors0, some a)
    | .error e => (errors0 ++ [e], (none : Option String))
  let errors1 := stepAddr.1
  let errors2 :=
    match token with
    | some t =>
        if t != "" then
          match checkExistingRedemption env st t with
          | some _ => errors1 ++ ["Token has already been redeemed"]
          | none => errors1
        else errors1
    | none => errors1
  let errors3 :=
    if tokenTruthy && errors2.isEmpty then
      match env.parseToken with
      | .ok tokenData =>
          if tokenData.totalAmount ≤ 0 then errors2 ++ ["Token has no value"] else errors2
      | .error e => errors2 ++ ["Invalid token: " ++ e]
    else errors2
  { valid := errors3.isEmpty, errors := errors3, lightningAddressToUse := stepAddr.2 }

/-- Outcome of one `POST /api/redeem` request: a 400 rejection with the
joined validation errors, or the orchestrator's result. -/
structure EndpointOut where
  rejected : Option String
  result : Option RedeemResult
  ledger : Ledger
  calls : List NetCall
  statuses : List String
  deriving DecidableEq, Repr

/-- The `/api/redeem` route handler of server.js: validate the request and
only then run `performRedemption`. -/
def redeemEndpoint (cfg : Config) (env : RedeemEnv) (st : Ledger)
    (redeemId : String) (now : Int) (token : String)
    (lightningAddress : Option String) : EndpointOut :=
  let validation := validateRedemptionRequest cfg env st (some token) lightningAddress
  if !validation.valid then
    { rejected := some (String.intercalate ", " validation.errors),
      result := none, ledger := st, calls := [], statuses := [] }
  else
    let out := performRedemption cfg env st redeemId now token lightningAddress
    { rejected := none, result := some out.result, ledger := out.ledger,
      calls := out.calls, statuses := out.statuses }

/-- Default sweep horizon of `cleanupOldRedemptions`: 24 hours in
milliseconds. -/
def defaultMaxAgeMs : Int := 24 * 60 * 60 * 1000

/-- RedemptionService.cleanupOldRedemptions: delete every attempt whose
`createdAt` lies before `now - maxAgeMs`, and for each deleted attempt with
a (truthy) `tokenHash` also delete that key from the fingerprint index. -/
def cleanupOldRedemptions (st : Ledger) (now : Int) (maxAgeMs : Int) : Ledger :=
  let cutoff := now - maxAgeMs
  let removed := st.redemptions.filter (fun p => decide (p.2.createdAt < cutoff))
  { redemptions := st.redemptions.filter (fun p => !decide (p.2.createdAt < cutoff)),
    tokenHashes := st.tokenHashes.filter (fun q =>
      !(removed.any (fun p => p.2.tokenHash != "" && p.2.tokenHash == q.1))) }

/-! ### Helper lemmas -/

@[simp]
theorem getAssoc_setAssoc_self {α : Type} (l : List (String × α)) (k : String) (v : α) :
    getAssoc (setAssoc l k v) k = some v := by
  induction l with
  | nil => simp [setAssoc, getAssoc]
  | cons p rest ih =>
      by_cases h : p.1 = k
      · simp [setAssoc, getAssoc, h]
      · simpa [setAssoc, getAssoc, h] using ih

theorem getAssoc_setAssoc_ne {α : Type} (l : List (String × α)) (k k' : String) (v : α)
    (h : k ≠ k') : getAssoc (setAssoc l k v) k' = getAssoc l k' := by
  induction l with
  | nil => simp [setAssoc, getAssoc, h]
  | cons p rest ih =>
      by_cases hp : p.1 = k
      · simp [setAssoc, getAssoc, hp, h]
      · simp [setAssoc, getAssoc, hp]
        split <;> simp_all

/-- The integer ceiling `(a * 2 + 99) / 100` agrees with the Nat
ceiling-division `(a + 49) / 50`. -/
theorem calculateFee_eq (a : ℕ) : calculateFee a = max 1 ((a + 49) / 50) := by
  show max 1 ((a * 2 + 99) / 100) = max 1 ((a + 49) / 50)
  congr 1
  omega

/-- Faithfulness of the embedding of `Math.ceil(amount * 0.02)`: the fee is
`max(1, ⌈amount * (2/100)⌉)` with the exact rational ceiling. -/
theorem calculateFee_ceil (a : ℕ) : (calculateFee a : ℤ) = max 1 ⌈(a : ℚ) * (2 / 100)⌉ := by
  have h2 : ((a : ℚ) * (2 / 100)) = (a : ℚ) / 50 := by ring
  have hle : ((a + 49) / 50) * 50 ≤ a + 49 := Nat.div_mul_le_self (a + 49) 50
  have hlt : a + 49 < ((a + 49) / 50 + 1) * 50 :=
    (Nat.div_lt_iff_lt_mul (by norm_num)).mp (Nat.lt_succ_self _)
  have hm : (⌈(a : ℚ) / 50⌉ : ℤ) = (((a + 49) / 50 : ℕ) : ℤ) := by
    generalize hq : (a + 49) / 50 = q at hle hlt ⊢
    have hA : a ≤ 50 * q := by omega
    have hB : 50 * q < a + 50 := by omega
    have cA : (a : ℚ) ≤ 50 * q := by exact_mod_cast hA
    have cB : (50 : ℚ) * q < a + 50 := by exact_mod_cast hB
    rw [Int.ceil_eq_iff]
    constructor
    · rw [lt_div_iff₀ (by norm_num)]
      push_cast
      linarith
    · rw [div_le_iff₀ (by norm_num)]
      push_cast
      linarith
  rw [calculateFee_eq, h2, hm]
  push_cast [Nat.cast_max]
  rfl

theorem calculateFee_pos (a : ℕ) : 1 ≤ calculateFee a := by
  unfold calculateFee
  exact le_max_left ..

theorem resolveInvoice_invoiceRequest_amount (cfg : Config) (env : RedeemEnv)
    (a : String) (amount : Int) (m : Int)
    (h : NetCall.invoiceRequest m ∈ (resolveInvoice cfg env a amount).2) :
    m = satsToMillisats amount := by
  unfold resolveInvoice at h
  cases hE : getLNURLpEndpoint cfg a with
  | error e => rw [hE] at h; simp at h
  | ok u =>
    rw [hE] at h
    cases hL : env.lnurlp with
    | error e2 => rw [hL] at h; simp at h
    | ok ln =>
      rw [hL] at h
      by_cases hV : validateAmount amount ln
      · simp only [hV, Bool.not_true, Bool.false_eq_true, if_false] at h
        cases hI : env.getInvoice (satsToMillisats amount) with
        | error e3 => rw [hI] at h; simp at h; exact h
        | ok b => rw [hI] at h; simp at h; exact h
      · simp only [Bool.not_eq_true] at hV
        simp [hV] at h

theorem meltToken_no_invoiceRequest (env : RedeemEnv) (d : ParsedToken) (m : Int) :
    NetCall.invoiceRequest m ∉ (meltToken env d).2 := by
  intro h
  unfold meltToken at h
  cases hQ : env.meltQuote with
  | error e => rw [hQ] at h; simp at h
  | ok q =>
    rw [hQ] at h
    by_cases hF : (d.totalAmount : Int) < q.amount + q.fee_reserve
    · simp [hF] at h
    · simp only [hF, if_false] at h
      cases hS : env.meltSubmit with
      | error e2 => rw [hS] at h; simp at h
      | ok r => rw [hS] at h; simp at h

/-- Whatever the oracle outcomes, a run that passes address selection stores
an attempt record which is still present (and findable through the
fingerprint index) when the run ends, with the chosen address, the
default-address flag and the fingerprint it was created with. -/
theorem performRedemption_run (cfg : Config) (env : RedeemEnv) (st : Ledger)
    (redeemId : String) (now : Int) (token : String) (addr : Option String)
    (a : String) (haddr : getLightningAddressToUse cfg addr = .ok a) :
    ∃ rec,
      checkExistingRedemption env (performRedemption cfg env st redeemId now token addr).ledger token = some rec
      ∧ getRedemption (performRedemption cfg env st redeemId now token addr).ledger redeemId = some rec
      ∧ rec.lightningAddress = a
      ∧ rec.usingDefaultAddress = usingDefaultFlag addr
      ∧ rec.tokenHash = env.hash token
      ∧ rec.createdAt = now := by
  unfold performRedemption
  simp only [haddr]
  iterate 8 (all_goals (try split))
  all_goals simp [failOut, markFailed, updateRedemption, storeRedemption,
    checkExistingRedemption, getRedemptionByTokenHash, getRedemption]

theorem mem_spendCheck_resolve (cfg : Config) (env : RedeemEnv) (a : String)
    (amt m : Int)
    (h : NetCall.invoiceRequest m ∈ NetCall.spendCheck :: (resolveInvoice cfg env a amt).2) :
    m = satsToMillisats amt := by
  rcases List.mem_cons.mp h with h | h
  · cases h
  · exact resolveInvoice_invoiceRequest_amount cfg env a amt m h

theorem mem_spendCheck_resolve_melt (cfg : Config) (env : RedeemEnv) (a : String)
    (amt m : Int) (d : ParsedToken)
    (h : NetCall.invoiceRequest m ∈
      NetCall.spendCheck :: (resolveInvoice cfg env a amt).2 ++ (meltToken env d).2) :
    m = satsToMillisats amt := by
  rcases List.mem_cons.mp h with h | h
  · cases h
  · rcases List.mem_append.mp h with h | h
    · exact resolveInvoice_invoiceRequest_amount cfg env a amt m h
    · exact absurd h (meltToken_no_invoiceRequest env d m)

/-- Every invoice request a run performs is for `satsToMillisats` of the
declared total minus the protocol minimum fee, whatever the oracles do. -/
theorem performRedemption_invoice_calls (cfg : Config) (env : RedeemEnv) (st : Ledger)
    (redeemId : String) (now : Int) (token : String) (addr : Option String)
    (d : ParsedToken) (hparse : env.parseToken = .ok d) (m : Int)
    (hm : NetCall.invoiceRequest m ∈ (performRedemption cfg env st redeemId now token addr).calls) :
    m = satsToMillisats ((d.totalAmount : Int) - (calculateFee d.totalAmount : Int)) := by
  cases haddr : getLightningAddressToUse cfg addr with
  | error e =>
      unfold performRedemption at hm
      simp only [haddr, failOut] at hm
      simp at hm
  | ok a =>
      unfold performRedemption at hm
      simp only [haddr, hparse] at hm
      by_cases hnet : ((d.totalAmount : Int) - (calculateFee d.totalAmount : Int)) ≤ 0
      · rw [if_pos hnet] at hm
        simp [failOut] at hm
      · rw [if_neg hnet] at hm
        rcases hR : resolveInvoice cfg env a ((d.totalAmount : Int) - (calculateFee d.totalAmount : Int))
          with ⟨res, rcalls⟩
        rcases hM : meltToken env d with ⟨mres, mcalls⟩
        have hR2 : (resolveInvoice cfg env a ((d.totalAmount : Int) - (calculateFee d.totalAmount : Int))).2 = rcalls := by
          rw [hR]
        have hM2 : (meltToken env d).2 = mcalls := by rw [hM]
        cases hS : env.spendCheck with
        | ok l =>
            simp only [hS] at hm
            by_cases hempty : l.isEmpty
            · simp [hempty, failOut] at hm
            · simp only [hempty, Bool.false_eq_true, if_false, hR, hM, failOut] at hm
              cases res with
              | error msg =>
                  simp at hm
                  exact resolveInvoice_invoiceRequest_amount cfg env a _ m (hR2 ▸ hm)
              | ok inv =>
                  cases mres with
                  | error msg =>
                      simp at hm
                      rcases hm with hm | hm
                      · exact resolveInvoice_invoiceRequest_amount cfg env a _ m (hR2 ▸ hm)
                      · exact absurd (hM2 ▸ hm) (meltToken_no_invoiceRequest env d m)
                  | ok mr =>
                      simp at hm
                      rcases hm with hm | hm
                      · exact resolveInvoice_invoiceRequest_amount cfg env a _ m (hR2 ▸ hm)
                      · exact absurd (hM2 ▸ hm) (meltToken_no_invoiceRequest env d m)
        | error e2 =>
            simp only [hS] at hm
            by_cases hpat : (strContains e2 "not spendable" || strContains e2 "already been used"
                || strContains e2 "invalid proofs" || strContains e2 "422") = true
            · simp [hpat, failOut] at hm
            · simp only [Bool.not_eq_true] at hpat
              simp only [hpat, if_false, hR, hM, failOut] at hm
              cases res with
              | error msg =>
                  simp at hm
                  exact resolveInvoice_invoiceRequest_amount cfg env a _ m (hR2 ▸ hm)
              | ok inv =>
                  cases mres with
                  | error msg =>
                      simp at hm
                      rcases hm with hm | hm
                      · exact resolveInvoice_invoiceRequest_amount cfg env a _ m (hR2 ▸ hm)
                      · exact absurd (hM2 ▸ hm) (meltToken_no_invoiceRequest env d m)
                  | ok mr =>
                      simp at hm
                      rcases hm with hm | hm
                      · exact resolveInvoice_invoiceRequest_amount cfg env a _ m (hR2 ▸ hm)
                      · exact absurd (hM2 ▸ hm) (meltToken_no_invoiceRequest env d m)

/-- A run that parses successfully and passes the net-amount gate always
reaches the spendability-check stage. -/
theorem performRedemption_reaches_spendability (cfg : Config) (env : RedeemEnv)
    (st : Ledger) (redeemId : String) (now : Int) (token : String)
    (addr : Option String) (a : String) (d : ParsedToken)
    (haddr : getLightningAddressToUse cfg addr = .ok a)
    (hparse : env.parseToken = .ok d)
    (hnet : ¬ ((d.totalAmount : Int) - (calculateFee d.totalAmount : Int) ≤ 0)) :
    "checking_spendability" ∈ (performRedemption cfg env st redeemId now token addr).statuses := by
  unfold performRedemption
  simp only [haddr, hparse]
  rw [if_neg hnet]
  iterate 8 (all_goals (try split))
  all_goals simp [failOut]


/-- On a successful return, the response carries the chosen address, the
default flag, the declared amount and the net invoice amount. -/
theorem performRedemption_success_fields (cfg : Config) (env : RedeemEnv) (st : Ledger)
    (redeemId : String) (now : Int) (token : String) (addr : Option String)
    (a : String) (d : ParsedToken)
    (haddr : getLightningAddressToUse cfg addr = .ok a)
    (hparse : env.parseToken = .ok d) :
    (performRedemption cfg env st redeemId now token addr).result.success = true →
    (performRedemption cfg env st redeemId now token addr).result.invoiceAmount
        = some ((d.totalAmount : Int) - (calculateFee d.totalAmount : Int))
    ∧ (performRedemption cfg env st redeemId now token addr).result.toAddr = some a
    ∧ (performRedemption cfg env st redeemId now token addr).result.usingDefaultAddress
        = some (usingDefaultFlag addr)
    ∧ (performRedemption cfg env st redeemId now token addr).result.amount
        = some (d.totalAmount : Int) := by
  unfold performRedemption
  simp only [haddr, hparse]
  iterate 8 (all_goals (try split))
  all_goals intro hsucc
  all_goals (first | exact ⟨rfl, rfl, rfl, rfl⟩ | simp [failOut] at hsucc)

/-- A request with a non-empty token, a selectable well-formed address, no
prior attempt for the token, and a positive-value parse passes validation. -/
theorem validateRedemptionRequest_ok (cfg : Config) (env : RedeemEnv) (st : Ledger)
    (token : String) (addr : Option String) (a : String) (d : ParsedToken)
    (htok : token ≠ "")
    (haddr : getLightningAddressToUse cfg addr = .ok a)
    (hfmt : validateLightningAddress a = true)
    (hex : checkExistingRedemption env st token = none)
    (hparse : env.parseToken = .ok d)
    (htot : 0 < d.totalAmount) :
    (validateRedemptionRequest cfg env st (some token) addr).valid = true := by
  unfold validateRedemptionRequest
  simp [htok, haddr, hfmt, hex, hparse, Nat.not_le.mpr htot, Nat.pos_iff_ne_zero.mp htot]

/-- Any existing attempt record for the token (whatever its status) makes
validation fail with the already-redeemed error, and that error is the only
one when everything else about the request is fine. -/
theorem validateRedemptionRequest_dup (cfg : Config) (env : RedeemEnv) (st : Ledger)
    (token : String) (addr : Option String) (a : String) (rec : RedemptionRecord)
    (htok : token ≠ "")
    (haddr : getLightningAddressToUse cfg addr = .ok a)
    (hfmt : validateLightningAddress a = true)
    (hex : checkExistingRedemption env st token = some rec) :
    (validateRedemptionRequest cfg env st (some token) addr).valid = false
    ∧ (validateRedemptionRequest cfg env st (some token) addr).errors
        = ["Token has already been redeemed"] := by
  unfold validateRedemptionRequest
  simp [htok, haddr, hfmt, hex]

theorem intercalate_singleton (s x : String) : String.intercalate s [x] = x := rfl

theorem getAssoc_filter_none {α : Type} (l : List (String × α)) (k : String)
    (p : String × α → Bool) (h : ∀ q ∈ l, q.1 = k → p q = false) :
    getAssoc (l.filter p) k = none := by
  induction l with
  | nil => rfl
  | cons q rest ih =>
      by_cases hp : p q
      · have hk : q.1 ≠ k := fun hk => by simp [h q (List.mem_cons_self q rest) hk] at hp
        simp only [List.filter_cons, hp, if_true, getAssoc]
        simp only [hk, if_false]
        exact ih (fun q hq hk => h q (List.mem_cons_of_mem _ hq) hk)
      · simp only [List.filter_cons, Bool.not_eq_true] at hp ⊢
        rw [hp]
        simp only [Bool.false_eq_true, if_false]
        exact ih (fun q hq hk => h q (List.mem_cons_of_mem _ hq) hk)

/-- When the melt response carries no success signal at all, the preimage
field assembled by `meltToken` is falsy too. -/
theorem jsOrStr_falsy (r : MeltResponse) (h : classifyMeltPaid r = false) :
    truthyOptStr (jsOrStr r.payment_preimage r.preimage) = false := by
  unfold classifyMeltPaid at h
  simp only [Bool.or_eq_false_iff] at h
  obtain ⟨⟨⟨_, h2⟩, h3⟩, _⟩ := h
  cases hp : r.payment_preimage with
  | none => cases hq : r.preimage with
    | none => simp [jsOrStr, truthyOptStr]
    | some s => simp_all [jsOrStr, truthyOptStr]
  | some s => cases hq : r.preimage with
    | none => simp_all [jsOrStr, truthyOptStr]
    | some s2 => simp_all [jsOrStr, truthyOptStr]


/-! ### Spec-modelled comparison definitions and concrete instances -/

/-- Modelled from the spec: `protocolMinFee(amount) = max(1, ceil(amount * 0.02))`,
with the ceiling written as the exact Nat ceiling division of `amount` by 50. -/
def protocolMinFee (amount : Nat) : Nat := max 1 ((amount + 49) / 50)

/-- Modelled from the spec: case-insensitive exact matching of a domain
against the configured allow-list entries. -/
def ciMatch (allowed : List String) (domain : String) : Bool :=
  allowed.any (fun c => jsToLower c == jsToLower domain)

/-- An empty ledger. -/
def stEmpty : Ledger := { redemptions := [], tokenHashes := [] }

/-- A concrete configuration: no domain restriction, a default address. -/
def cfgW : Config := { allowedDomains := [], defaultLightningAddress := some "admin@example.org" }

/-- A concrete configuration with a two-domain allow-list and no default. -/
def cfgRestricted : Config :=
  { allowedDomains := ["ln.tips", "getalby.com"], defaultLightningAddress := none }

/-- A concrete configuration with no default address and no restriction. -/
def cfgNoDefault : Config := { allowedDomains := [], defaultLightningAddress := none }

/-- A concrete parsed token worth 21000 sats. -/
def tokenDataW : ParsedToken :=
  { mint := "https://mint.example", totalAmount := 21000, numProofs := 3,
    denominations := [1000, 10000, 10000], format := "cashuA" }

/-- A concrete parsed token worth 1 sat (too small to cover the fee). -/
def tokenDataTiny : ParsedToken :=
  { mint := "https://mint.example", totalAmount := 1, numProofs := 1,
    denominations := [1], format := "cashuA" }

/-- Concrete LNURLp data with bounds 1000–100000000000 millisats. -/
def lnurlpW : LnurlpData :=
  { callback := "https://cb.example/pay", minSendable := 1000, maxSendable := 100000000000 }

/-- A concrete melt quote matching the 21000-sat token. -/
def quoteW : MeltQuote := { amount := 20580, fee_reserve := 420, quote := "q1" }

/-- A concrete melt response with an explicit paid flag and a preimage. -/
def meltRespW : MeltResponse :=
  { paid := some true, payment_preimage := some "abcd", preimage := none,
    state := none, fee_paid := none, fee := none }

/-- A concrete melt response with no success signal at all. -/
def meltRespNoSig : MeltResponse :=
  { paid := some false, payment_preimage := some "", preimage := none,
    state := some "PENDING", fee_paid := none, fee := none }

/-- A concrete melt response with paid=false but a non-empty preimage. -/
def meltRespPreimageOnly : MeltResponse :=
  { paid := some false, payment_preimage := some "deadbeef", preimage := none,
    state := none, fee_paid := none, fee := none }

/-- A concrete oracle environment in which every external call succeeds. -/
def envW : RedeemEnv :=
  { hash := fun _ => "h1",
    parseToken := .ok tokenDataW,
    spendCheck := .ok ["s1"],
    lnurlp := .ok lnurlpW,
    getInvoice := fun _ => .ok "lnbc1invoice",
    meltQuote := .ok quoteW,
    meltSubmit := .ok meltRespW }

/-- The successful environment, but the token parses to 1 sat. -/
def envTiny : RedeemEnv := { envW with parseToken := .ok tokenDataTiny }

/-- The successful environment, but the melt response carries no signal. -/
def envNoSig : RedeemEnv := { envW with meltSubmit := .ok meltRespNoSig }

/-! ### Claim theorems -/

/-- C1: for every integer amount >= 1, the protocol minimum fee computed by
calculateFee equals max(1, ceil(amount * 0.02)) — both as the exact
rational ceiling and as the spec-modelled protocolMinFee; in particular
calculateFee 21000 = 420 and calculateFee 10 = 1. -/
theorem claim_fee_floor :
    (∀ amount : ℕ, 1 ≤ amount →
        (calculateFee amount : ℤ) = max 1 ⌈(amount : ℚ) * (2 / 100)⌉
        ∧ calculateFee amount = protocolMinFee amount)
    ∧ calculateFee 21000 = 420 ∧ calculateFee 10 = 1 := by
  refine ⟨fun a _ => ⟨calculateFee_ceil a, ?_⟩, by decide, by decide⟩
  rw [calculateFee_eq]
  rfl

theorem claim_fee_floor_witness :
    (calculateFee 21000 : ℤ) = max 1 ⌈(21000 : ℚ) * (2 / 100)⌉
    ∧ calculateFee 21000 = protocolMinFee 21000 :=
  claim_fee_floor.1 21000 (by norm_num)

/-- C8: an amount (in units) passes the bounds check exactly when
minSendable <= amount*1000 <= maxSendable, both boundaries inclusive; with
minSendable = 1000 an amount of 0 fails and an amount of 1 passes. -/
theorem claim_amount_bounds :
    (∀ (amount minS maxS : Int) (cb : String),
      validateAmount amount { callback := cb, minSendable := minS, maxSendable := maxS } = true
        ↔ (minS ≤ amount * 1000 ∧ amount * 1000 ≤ maxS))
    ∧ validateAmount 0 { callback := "cb", minSendable := 1000, maxSendable := 100000000 } = false
    ∧ validateAmount 1 { callback := "cb", minSendable := 1000, maxSendable := 100000000 } = true := by
  refine ⟨fun amount minS maxS cb => ?_, by decide, by decide⟩
  simp [validateAmount, satsToMillisats]

/-- C7 counterexample: with allow-list ["LN.TIPS"], the domain "ln.tips"
matches case-insensitively, yet isDomainAllowed rejects it — matching is
case-sensitive in the configured entries (only the candidate is lowercased),
so the claim's "matches case-insensitively" characterisation fails. -/
theorem claim_domain_allowlist_counterexample :
    ciMatch ["LN.TIPS"] "ln.tips" = true
    ∧ isDomainAllowed { allowedDomains := ["LN.TIPS"], defaultLightningAddress := none }
        "ln.tips" = false := by
  decide

/-- C7 amended: an empty allow-list or a wildcard entry allows every domain;
otherwise a domain is allowed exactly when its lowercased form appears
verbatim in the configured list (entries are matched case-sensitively); a
domain rejected by the gate fails before any network call (empty call
trace).  The spec's two examples hold. -/
theorem claim_domain_allowlist :
    (∀ (cfg : Config) (domain : String), isDomainAllowed cfg domain = true ↔
      (cfg.allowedDomains = [] ∨ "*" ∈ cfg.allowedDomains
        ∨ jsToLower domain ∈ cfg.allowedDomains))
    ∧ (∀ (cfg : Config) (env : RedeemEnv) (a : String) (amount : Int) (e : String),
        parseLightningAddress cfg a = .error e →
          (resolveInvoice cfg env a amount).1
              = .error ("Lightning address resolution failed: " ++ e)
          ∧ (resolveInvoice cfg env a amount).2 = [])
    ∧ isDomainAllowed cfgRestricted "evil.com" = false
    ∧ isDomainAllowed cfgRestricted "ln.tips" = true := by
  refine ⟨fun cfg domain => ?_, fun cfg env a amount e hpe => ?_, by decide, by decide⟩
  · unfold isDomainAllowed
    by_cases h1 : cfg.allowedDomains.isEmpty
    · simp [h1, List.isEmpty_iff.mp h1]
    · by_cases h2 : cfg.allowedDomains.contains "*"
      · simp only [h1, Bool.false_eq_true, if_false, h2, if_true]
        simp at h2
        simp [h2]
      · simp only [h1, Bool.false_eq_true, if_false, h2]
        constructor
        · intro h
          right; right
          simpa using h
        · intro h
          rcases h with h | h | h
          · exact absurd (by simp [h]) h1
          · exact absurd (by simpa using h) (by simpa using h2)
          · simpa using h
  · have hE : getLNURLpEndpoint cfg a = .error e := by
      unfold getLNURLpEndpoint
      rw [hpe]
    unfold resolveInvoice
    rw [hE]
    exact ⟨rfl, rfl⟩

theorem claim_domain_allowlist_witness :
    (resolveInvoice cfgRestricted envW "user@evil.com" 20580).1
        = .error ("Lightning address resolution failed: "
            ++ "Domain evil.com is not allowed for redemption")
    ∧ (resolveInvoice cfgRestricted envW "user@evil.com" 20580).2 = [] :=
  claim_domain_allowlist.2.1 cfgRestricted envW "user@evil.com" 20580
    "Domain evil.com is not allowed for redemption" rfl

/-- A concrete stale attempt still in the non-terminal processing state. -/
def recC9 : RedemptionRecord :=
  { status := "processing", token := "cashuA...", tokenHash := "h9",
    lightningAddress := "user@ln.tips", usingDefaultAddress := false,
    paid := false, error := none, createdAt := 0, updatedAt := 0 }

/-- A concrete ledger holding only the stale processing attempt. -/
def stC9 : Ledger := { redemptions := [("id9", recC9)], tokenHashes := [("h9", "id9")] }

/-- C9 counterexample: a two-day-old attempt whose state is the non-terminal
'processing' is removed by the sweep (together with its fingerprint entry),
refuting the claim that non-terminal entries are never removed. -/
theorem claim_sweep_counterexample :
    recC9.status = "processing"
    ∧ (cleanupOldRedemptions stC9 (2 * defaultMaxAgeMs) defaultMaxAgeMs).redemptions = []
    ∧ (cleanupOldRedemptions stC9 (2 * defaultMaxAgeMs) defaultMaxAgeMs).tokenHashes = [] := by
  refine ⟨rfl, ?_, ?_⟩ <;> rfl

/-- C9 amended: the sweep (default horizon 24h = 86400000 ms) removes
exactly the ledger entries older than the horizon, regardless of their
state (non-terminal entries included), and removes the fingerprint index
entry of each removed attempt. -/
theorem claim_sweep_behaviour (st : Ledger) (now maxAgeMs : Int)
    (redeemId : String) (rec : RedemptionRecord)
    (hmem : (redeemId, rec) ∈ st.redemptions) :
    defaultMaxAgeMs = 24 * 60 * 60 * 1000
    ∧ ((redeemId, rec) ∉ (cleanupOldRedemptions st now maxAgeMs).redemptions
        ↔ rec.createdAt < now - maxAgeMs)
    ∧ (rec.createdAt < now - maxAgeMs → rec.tokenHash ≠ "" →
        getAssoc (cleanupOldRedemptions st now maxAgeMs).tokenHashes rec.tokenHash = none) := by
  refine ⟨rfl, ?_, ?_⟩
  · constructor
    · intro h
      by_contra hold
      apply h
      unfold cleanupOldRedemptions
      exact List.mem_filter.mpr ⟨hmem, by simpa using hold⟩
    · intro hold hmem2
      unfold cleanupOldRedemptions at hmem2
      have h2 := (List.mem_filter.mp hmem2).2
      simp at h2
      exact absurd hold (by simpa using h2)
  · intro hold hne
    unfold cleanupOldRedemptions
    apply getAssoc_filter_none
    intro q hq hk
    have hrem : (redeemId, rec) ∈ st.redemptions.filter
        (fun p => decide (p.2.createdAt < now - maxAgeMs)) :=
      List.mem_filter.mpr ⟨hmem, by simpa using hold⟩
    have hany : (st.redemptions.filter (fun p => decide (p.2.createdAt < now - maxAgeMs))).any
        (fun p => p.2.tokenHash != "" && p.2.tokenHash == q.1) = true := by
      refine List.any_eq_true.mpr ⟨(redeemId, rec), hrem, ?_⟩
      simp [hne, hk]
    simp [hany]

theorem claim_sweep_behaviour_witness :
    defaultMaxAgeMs = 24 * 60 * 60 * 1000
    ∧ (("id9", recC9) ∉ (cleanupOldRedemptions stC9 (2 * defaultMaxAgeMs) defaultMaxAgeMs).redemptions
        ↔ recC9.createdAt < 2 * defaultMaxAgeMs - defaultMaxAgeMs)
    ∧ (recC9.createdAt < 2 * defaultMaxAgeMs - defaultMaxAgeMs → recC9.tokenHash ≠ "" →
        getAssoc (cleanupOldRedemptions stC9 (2 * defaultMaxAgeMs) defaultMaxAgeMs).tokenHashes
          recC9.tokenHash = none) :=
  claim_sweep_behaviour stC9 (2 * defaultMaxAgeMs) defaultMaxAgeMs "id9" recC9 (by decide)

/-- C2: every Lightning invoice requested from the payee during a run is for
declared - protocolMinFee(declared) satoshis (sent as millisats on the
wire), never the raw declared amount; a successful response reports the
same net invoice amount; for declared = 21000 the amount is 20580. -/
theorem claim_invoice_sizing (cfg : Config) (env : RedeemEnv) (st : Ledger)
    (redeemId : String) (now : Int) (token : String) (addr : Option String)
    (a : String) (d : ParsedToken)
    (haddr : getLightningAddressToUse cfg addr = .ok a)
    (hparse : env.parseToken = .ok d) :
    (∀ m : Int,
      NetCall.invoiceRequest m ∈ (performRedemption cfg env st redeemId now token addr).calls →
        m = satsToMillisats ((d.totalAmount : Int) - (calculateFee d.totalAmount : Int))
        ∧ m ≠ satsToMillisats (d.totalAmount : Int))
    ∧ ((performRedemption cfg env st redeemId now token addr).result.success = true →
        (performRedemption cfg env st redeemId now token addr).result.invoiceAmount
          = some ((d.totalAmount : Int) - (calculateFee d.totalAmount : Int)))
    ∧ (d.totalAmount = 21000 →
        (d.totalAmount : Int) - (calculateFee d.totalAmount : Int) = 20580) := by
  refine ⟨fun m hm => ⟨?_, ?_⟩, fun hs =>
      (performRedemption_success_fields cfg env st redeemId now token addr a d haddr hparse hs).1,
      fun h21 => ?_⟩
  · exact performRedemption_invoice_calls cfg env st redeemId now token addr d hparse m hm
  · have he := performRedemption_invoice_calls cfg env st redeemId now token addr d hparse m hm
    rw [he]
    unfold satsToMillisats
    have hfee : 1 ≤ (calculateFee d.totalAmount : Int) := by
      exact_mod_cast calculateFee_pos d.totalAmount
    intro hcontra
    have hc := mul_right_cancel₀ (by norm_num : (1000 : Int) ≠ 0) hcontra
    omega
  · rw [h21, calculateFee_eq]
    decide

theorem claim_invoice_sizing_witness :
    (∀ m : Int,
      NetCall.invoiceRequest m ∈ (performRedemption cfgW envW stEmpty "id1" 0 "cashuAtok1" none).calls →
        m = satsToMillisats ((tokenDataW.totalAmount : Int) - (calculateFee tokenDataW.totalAmount : Int))
        ∧ m ≠ satsToMillisats (tokenDataW.totalAmount : Int))
    ∧ ((performRedemption cfgW envW stEmpty "id1" 0 "cashuAtok1" none).result.success = true →
        (performRedemption cfgW envW stEmpty "id1" 0 "cashuAtok1" none).result.invoiceAmount
          = some ((tokenDataW.totalAmount : Int) - (calculateFee tokenDataW.totalAmount : Int)))
    ∧ (tokenDataW.totalAmount = 21000 →
        (tokenDataW.totalAmount : Int) - (calculateFee tokenDataW.totalAmount : Int) = 20580) :=
  claim_invoice_sizing cfgW envW stEmpty "id1" 0 "cashuAtok1" none
    "admin@example.org" tokenDataW rfl rfl

/-- C3: when the declared value minus the protocol minimum fee is ≤ 0, the
run fails with the insufficient-value error before any network call: empty
call trace, no status written beyond the parsing stage, and the attempt
record marked failed. -/
theorem claim_insufficient_value (cfg : Config) (env : RedeemEnv) (st : Ledger)
    (redeemId : String) (now : Int) (token : String) (addr : Option String)
    (a : String) (d : ParsedToken)
    (haddr : getLightningAddressToUse cfg addr = .ok a)
    (hparse : env.parseToken = .ok d)
    (hnet : (d.totalAmount : Int) - (calculateFee d.totalAmount : Int) ≤ 0) :
    (performRedemption cfg env st redeemId now token addr).calls = []
    ∧ (performRedemption cfg env st redeemId now token addr).result.success = false
    ∧ (performRedemption cfg env st redeemId now token addr).result.error
        = some ("Token amount (" ++ toString d.totalAmount
            ++ " sats) is insufficient to cover the minimum fee ("
            ++ toString ((calculateFee d.totalAmount : Int)) ++ " sats)")
    ∧ (performRedemption cfg env st redeemId now token addr).statuses
        = ["processing", "parsing_token", "failed"]
    ∧ ((getRedemption (performRedemption cfg env st redeemId now token addr).ledger redeemId).map
        (fun r => r.status)) = some "failed" := by
  unfold performRedemption
  simp only [haddr, hparse]
  rw [if_pos hnet]
  refine ⟨rfl, rfl, rfl, rfl, ?_⟩
  simp [failOut, markFailed, updateRedemption, storeRedemption, getRedemption]

theorem claim_insufficient_value_witness :
    (performRedemption cfgW envTiny stEmpty "id1" 0 "cashuAtok1" none).calls = []
    ∧ (performRedemption cfgW envTiny stEmpty "id1" 0 "cashuAtok1" none).result.success = false
    ∧ (performRedemption cfgW envTiny stEmpty "id1" 0 "cashuAtok1" none).result.error
        = some ("Token amount (" ++ toString tokenDataTiny.totalAmount
            ++ " sats) is insufficient to cover the minimum fee ("
            ++ toString ((calculateFee tokenDataTiny.totalAmount : Int)) ++ " sats)")
    ∧ (performRedemption cfgW envTiny stEmpty "id1" 0 "cashuAtok1" none).statuses
        = ["processing", "parsing_token", "failed"]
    ∧ ((getRedemption (performRedemption cfgW envTiny stEmpty "id1" 0 "cashuAtok1" none).ledger "id1").map
        (fun r => r.status)) = some "failed" :=
  claim_insufficient_value cfgW envTiny stEmpty "id1" 0 "cashuAtok1" none
    "admin@example.org" tokenDataTiny rfl rfl (by decide)

/-- C4: redeeming the same token twice (sequentially; the embedding is
sequential, matching the effectively-atomic check-then-create the spec
requires): the first request passes validation and proceeds past the
parsing stage to the spendability check; the second is rejected with the
already-redeemed error — the fingerprint index maps the token's hash to the
first attempt — performing no network call, writing no status, and leaving
the ledger unchanged. -/
theorem claim_duplicate_guard (cfg : Config) (env : RedeemEnv) (st : Ledger)
    (id1 id2 token : String) (t1 t2 : Int) (addr : Option String)
    (a : String) (d : ParsedToken)
    (htok : token ≠ "")
    (haddr : getLightningAddressToUse cfg addr = .ok a)
    (hfmt : validateLightningAddress a = true)
    (hex : checkExistingRedemption env st token = none)
    (hparse : env.parseToken = .ok d)
    (hnet : ¬ ((d.totalAmount : Int) - (calculateFee d.totalAmount : Int) ≤ 0)) :
    (redeemEndpoint cfg env st id1 t1 token addr).rejected = none
    ∧ "checking_spendability" ∈ (redeemEndpoint cfg env st id1 t1 token addr).statuses
    ∧ (redeemEndpoint cfg env (redeemEndpoint cfg env st id1 t1 token addr).ledger
          id2 t2 token addr).rejected = some "Token has already been redeemed"
    ∧ (redeemEndpoint cfg env (redeemEndpoint cfg env st id1 t1 token addr).ledger
          id2 t2 token addr).calls = []
    ∧ (redeemEndpoint cfg env (redeemEndpoint cfg env st id1 t1 token addr).ledger
          id2 t2 token addr).statuses = []
    ∧ (redeemEndpoint cfg env (redeemEndpoint cfg env st id1 t1 token addr).ledger
          id2 t2 token addr).ledger = (redeemEndpoint cfg env st id1 t1 token addr).ledger := by
  have htot : 0 < d.totalAmount := by
    by_contra h
    have h0 : d.totalAmount = 0 := by omega
    apply hnet
    rw [h0]
    have h1 : 1 ≤ (calculateFee 0 : Int) := by exact_mod_cast calculateFee_pos 0
    omega
  have hv1 := validateRedemptionRequest_ok cfg env st token addr a d htok haddr hfmt hex hparse htot
  have heq1 : redeemEndpoint cfg env st id1 t1 token addr
      = { rejected := none,
          result := some (performRedemption cfg env st id1 t1 token addr).result,
          ledger := (performRedemption cfg env st id1 t1 token addr).ledger,
          calls := (performRedemption cfg env st id1 t1 token addr).calls,
          statuses := (performRedemption cfg env st id1 t1 token addr).statuses } := by
    unfold redeemEndpoint
    simp [hv1]
  obtain ⟨rec, hfind, hget, hla, hudf, hth, hca⟩ :=
    performRedemption_run cfg env st id1 t1 token addr a haddr
  have hdup := validateRedemptionRequest_dup cfg env
      (performRedemption cfg env st id1 t1 token addr).ledger token addr a rec htok haddr hfmt hfind
  have heq2 : redeemEndpoint cfg env (performRedemption cfg env st id1 t1 token addr).ledger
        id2 t2 token addr
      = { rejected := some "Token has already been redeemed",
          result := none,
          ledger := (performRedemption cfg env st id1 t1 token addr).ledger,
          calls := [], statuses := [] } := by
    unfold redeemEndpoint
    simp [hdup.1, hdup.2, intercalate_singleton]
  rw [heq1]
  dsimp only
  rw [heq2]
  exact ⟨rfl,
    performRedemption_reaches_spendability cfg env st id1 t1 token addr a d haddr hparse hnet,
    rfl, rfl, rfl, rfl⟩

theorem claim_duplicate_guard_witness :
    (redeemEndpoint cfgW envW stEmpty "id1" 0 "cashuAtok1" none).rejected = none
    ∧ "checking_spendability" ∈ (redeemEndpoint cfgW envW stEmpty "id1" 0 "cashuAtok1" none).statuses
    ∧ (redeemEndpoint cfgW envW (redeemEndpoint cfgW envW stEmpty "id1" 0 "cashuAtok1" none).ledger
          "id2" 1 "cashuAtok1" none).rejected = some "Token has already been redeemed"
    ∧ (redeemEndpoint cfgW envW (redeemEndpoint cfgW envW stEmpty "id1" 0 "cashuAtok1" none).ledger
          "id2" 1 "cashuAtok1" none).calls = []
    ∧ (redeemEndpoint cfgW envW (redeemEndpoint cfgW envW stEmpty "id1" 0 "cashuAtok1" none).ledger
          "id2" 1 "cashuAtok1" none).statuses = []
    ∧ (redeemEndpoint cfgW envW (redeemEndpoint cfgW envW stEmpty "id1" 0 "cashuAtok1" none).ledger
          "id2" 1 "cashuAtok1" none).ledger
        = (redeemEndpoint cfgW envW stEmpty "id1" 0 "cashuAtok1" none).ledger :=
  claim_duplicate_guard cfgW envW stEmpty "id1" "id2" "cashuAtok1" 0 1 none
    "admin@example.org" tokenDataW (by decide) rfl (by decide) rfl rfl (by decide)

/-- C5 counterexample: a token whose only prior attempt ended in the Failed
state (here: insufficient value) is not accepted again — the second request
is rejected as already redeemed, contradicting the claim that failed
attempts may be retried. -/
theorem claim_failed_retry_counterexample :
    ((getRedemption (redeemEndpoint cfgW envTiny stEmpty "id1" 0 "cashuAtok1" none).ledger "id1").map
        (fun r => r.status)) = some "failed"
    ∧ (redeemEndpoint cfgW envTiny
          (redeemEndpoint cfgW envTiny stEmpty "id1" 0 "cashuAtok1" none).ledger
          "id2" 1 "cashuAtok1" none).rejected
        = some "Token has already been redeemed" :=
  ⟨rfl, rfl⟩

/-- C5 amended: the duplicate guard blocks on any existing attempt record
for the token's fingerprint, including one whose state is Failed: the new
request is rejected with the already-redeemed error, with no network call,
no status write, and an unchanged ledger (a retry becomes possible only
once the sweep removes the record). -/
theorem claim_failed_retry_amended (cfg : Config) (env : RedeemEnv) (st : Ledger)
    (redeemId : String) (now : Int) (token : String) (addr : Option String)
    (a : String) (rec : RedemptionRecord)
    (htok : token ≠ "")
    (haddr : getLightningAddressToUse cfg addr = .ok a)
    (hfmt : validateLightningAddress a = true)
    (hex : checkExistingRedemption env st token = some rec)
    (_hfailed : rec.status = "failed") :
    (redeemEndpoint cfg env st redeemId now token addr).rejected
        = some "Token has already been redeemed"
    ∧ (redeemEndpoint cfg env st redeemId now token addr).ledger = st
    ∧ (redeemEndpoint cfg env st redeemId now token addr).calls = []
    ∧ (redeemEndpoint cfg env st redeemId now token addr).statuses = [] := by
  have hdup := validateRedemptionRequest_dup cfg env st token addr a rec htok haddr hfmt hex
  unfold redeemEndpoint
  simp [hdup.1, hdup.2, intercalate_singleton]

/-- A concrete attempt record that ended in the Failed state. -/
def recFailed : RedemptionRecord :=
  { status := "failed", token := "cashuAtok1...", tokenHash := "h1",
    lightningAddress := "admin@example.org", usingDefaultAddress := true,
    amount := none, paid := false,
    error := some "Token amount (1 sats) is insufficient to cover the minimum fee (1 sats)",
    createdAt := 0, updatedAt := 0 }

/-- A ledger whose only entry is the failed attempt, indexed by fingerprint. -/
def stWithFailed : Ledger :=
  { redemptions := [("id1", recFailed)], tokenHashes := [("h1", "id1")] }

theorem claim_failed_retry_amended_witness :
    (redeemEndpoint cfgW envW stWithFailed "id2" 1 "cashuAtok1" none).rejected
        = some "Token has already been redeemed"
    ∧ (redeemEndpoint cfgW envW stWithFailed "id2" 1 "cashuAtok1" none).ledger = stWithFailed
    ∧ (redeemEndpoint cfgW envW stWithFailed "id2" 1 "cashuAtok1" none).calls = []
    ∧ (redeemEndpoint cfgW envW stWithFailed "id2" 1 "cashuAtok1" none).statuses = [] :=
  claim_failed_retry_amended cfgW envW stWithFailed "id2" 1 "cashuAtok1" none
    "admin@example.org" recFailed (by decide) rfl (by decide) rfl rfl

theorem state_paid_simp (o : Option String) :
    (truthyOptStr o && o == some "PAID") = (o == some "PAID") := by
  cases o with
  | none => simp [truthyOptStr]
  | some v =>
      by_cases hv : v = "PAID" <;> simp [hv, truthyOptStr]

/-- C6: settlement is classified successful exactly when one of the
independent signals holds (paid flag strictly true, a non-empty preimage in
either preimage field, or state equal to "PAID"); paid=false with a
non-empty preimage is still successful; and a run whose melt response
carries none of the signals ends with the attempt classified Failed. -/
theorem claim_multi_signal (cfg : Config) (env : RedeemEnv) (st : Ledger)
    (redeemId : String) (now : Int) (token : String) (addr : Option String)
    (a u dom : String) (d : ParsedToken) (l : List String) (ln : LnurlpData)
    (b : String) (q : MeltQuote) (r : MeltResponse)
    (haddr : getLightningAddressToUse cfg addr = .ok a)
    (hparse : env.parseToken = .ok d)
    (hnet : ¬ ((d.totalAmount : Int) - (calculateFee d.totalAmount : Int) ≤ 0))
    (hS : env.spendCheck = .ok l)
    (hlemp : l.isEmpty = false)
    (hpl : parseLightningAddress cfg a = .ok (u, dom))
    (hln : env.lnurlp = .ok ln)
    (hV : validateAmount ((d.totalAmount : Int) - (calculateFee d.totalAmount : Int)) ln = true)
    (hI : env.getInvoice (satsToMillisats ((d.totalAmount : Int) - (calculateFee d.totalAmount : Int))) = .ok b)
    (hQ : env.meltQuote = .ok q)
    (hfunds : ¬ ((d.totalAmount : Int) < q.amount + q.fee_reserve))
    (hM : env.meltSubmit = .ok r)
    (hclass : classifyMeltPaid r = false) :
    (∀ resp : MeltResponse, classifyMeltPaid resp = true ↔
        (resp.paid = some true
          ∨ (∃ s, resp.payment_preimage = some s ∧ s ≠ "")
          ∨ (∃ s, resp.preimage = some s ∧ s ≠ "")
          ∨ resp.state = some "PAID"))
    ∧ (∀ (resp : MeltResponse) (s : String),
        resp.paid = some false → resp.payment_preimage = some s → s ≠ "" →
          classifyMeltPaid resp = true)
    ∧ (performRedemption cfg env st redeemId now token addr).result.success = true
    ∧ (performRedemption cfg env st redeemId now token addr).result.paid = some false
    ∧ (performRedemption cfg env st redeemId now token addr).statuses
        = ["processing", "parsing_token", "checking_spendability",
           "resolving_invoice", "melting_token", "failed"]
    ∧ ((getRedemption (performRedemption cfg env st redeemId now token addr).ledger redeemId).map
        (fun rc => rc.status)) = some "failed" := by
  refine ⟨?_, ?_, ?_⟩
  · intro resp
    unfold classifyMeltPaid
    rw [state_paid_simp]
    cases hp : resp.paid <;> cases hpp : resp.payment_preimage <;>
      cases hpi : resp.preimage <;> cases hst : resp.state <;>
        simp_all [truthyOptStr] <;> tauto
  · intro resp s h1 h2 h3
    unfold classifyMeltPaid truthyOptStr
    rw [h2]
    simp [h3]
  · have hfls := jsOrStr_falsy r hclass
    unfold performRedemption resolveInvoice meltToken getLNURLpEndpoint
    simp only [haddr, hparse, hpl, hln, hI, hQ, hM, hS, hV, hlemp, hclass, hfls,
      if_neg hnet, if_neg hfunds, Bool.not_true, Bool.false_eq_true, if_false,
      Bool.or_false, Bool.false_or, if_true]
    refine ⟨?_, ?_, ?_, ?_⟩ <;>
      simp [updateRedemption, storeRedemption, getRedemption, getAssoc_setAssoc_self]

theorem claim_multi_signal_witness :
    (∀ resp : MeltResponse, classifyMeltPaid resp = true ↔
        (resp.paid = some true
          ∨ (∃ s, resp.payment_preimage = some s ∧ s ≠ "")
          ∨ (∃ s, resp.preimage = some s ∧ s ≠ "")
          ∨ resp.state = some "PAID"))
    ∧ (∀ (resp : MeltResponse) (s : String),
        resp.paid = some false → resp.payment_preimage = some s → s ≠ "" →
          classifyMeltPaid resp = true)
    ∧ (performRedemption cfgW envNoSig stEmpty "id1" 0 "cashuAtok1" none).result.success = true
    ∧ (performRedemption cfgW envNoSig stEmpty "id1" 0 "cashuAtok1" none).result.paid = some false
    ∧ (performRedemption cfgW envNoSig stEmpty "id1" 0 "cashuAtok1" none).statuses
        = ["processing", "parsing_token", "checking_spendability",
           "resolving_invoice", "melting_token", "failed"]
    ∧ ((getRedemption (performRedemption cfgW envNoSig stEmpty "id1" 0 "cashuAtok1" none).ledger "id1").map
        (fun rc => rc.status)) = some "failed" :=
  claim_multi_signal cfgW envNoSig stEmpty "id1" 0 "cashuAtok1" none
    "admin@example.org" "admin" "example.org" tokenDataW ["s1"] lnurlpW
    "lnbc1invoice" quoteW meltRespNoSig
    rfl rfl (by decide) rfl rfl rfl rfl (by decide) rfl rfl (by decide) rfl (by decide)

theorem performRedemption_parse_error_fails (cfg : Config) (env : RedeemEnv)
    (st : Ledger) (redeemId : String) (now : Int) (token : String)
    (addr : Option String) (e : String)
    (hparse : env.parseToken = .error e) :
    (performRedemption cfg env st redeemId now token addr).result.success = false := by
  unfold performRedemption
  cases haddr : getLightningAddressToUse cfg addr <;> simp [haddr, hparse, failOut]

/-- A request address is absent or blank: `None`, or a string whose
JavaScript trim is empty. -/
def blankAddress (addr : Option String) : Prop :=
  addr = none ∨ ∃ s, addr = some s ∧ jsTrim s = ""

theorem getLightningAddressToUse_blank_none (cfg : Config) (addr : Option String)
    (hdef : getDefaultLightningAddress cfg = none) (hblank : blankAddress addr) :
    getLightningAddressToUse cfg addr
      = .error "No Lightning address provided and no default Lightning address configured" := by
  rcases hblank with h | ⟨s, hs, hjs⟩
  · subst h
    unfold getLightningAddressToUse
    rw [hdef]
  · subst hs
    unfold getLightningAddressToUse
    simp [hjs, hdef]

theorem getLightningAddressToUse_blank_default (cfg : Config) (addr : Option String)
    (dft : String) (hdef : getDefaultLightningAddress cfg = some dft)
    (hblank : blankAddress addr) :
    getLightningAddressToUse cfg addr = .ok dft := by
  rcases hblank with h | ⟨s, hs, hjs⟩
  · subst h
    unfold getLightningAddressToUse
    rw [hdef]
  · subst hs
    unfold getLightningAddressToUse
    simp [hjs, hdef]

theorem usingDefaultFlag_blank (addr : Option String) (hblank : blankAddress addr) :
    usingDefaultFlag addr = true := by
  rcases hblank with h | ⟨s, hs, hjs⟩
  · subst h; rfl
  · subst hs
    unfold usingDefaultFlag
    simp [hjs]

theorem validateRedemptionRequest_addr_error (cfg : Config) (env : RedeemEnv)
    (st : Ledger) (token : Option String) (addr : Option String) (msg : String)
    (haddr : getLightningAddressToUse cfg addr = .error msg) :
    msg ∈ (validateRedemptionRequest cfg env st token addr).errors
    ∧ (validateRedemptionRequest cfg env st token addr).valid = false := by
  rcases token with _ | t
  · simp [validateRedemptionRequest, haddr]
  · by_cases ht : t = ""
    · subst ht
      simp [validateRedemptionRequest, haddr]
    · cases hex : checkExistingRedemption env st t with
      | some rec => simp [validateRedemptionRequest, haddr, ht, hex]
      | none => simp [validateRedemptionRequest, haddr, ht, hex]

/-- C10: with no default address configured, a request whose address is
absent or blank is rejected during validation with the configured-default
error and no attempt is created (ledger unchanged, nothing executed); with
a default configured, the default becomes the destination and the attempt
record (and a successful response) carry the default-address flag. -/
theorem claim_default_address :
    (∀ (cfg : Config) (env : RedeemEnv) (st : Ledger) (redeemId : String)
        (now : Int) (token : String) (addr : Option String),
      getDefaultLightningAddress cfg = none → blankAddress addr →
      "No Lightning address provided and no default Lightning address configured"
          ∈ (validateRedemptionRequest cfg env st (some token) addr).errors
      ∧ (validateRedemptionRequest cfg env st (some token) addr).valid = false
      ∧ (redeemEndpoint cfg env st redeemId now token addr).rejected ≠ none
      ∧ (redeemEndpoint cfg env st redeemId now token addr).ledger = st
      ∧ (redeemEndpoint cfg env st redeemId now token addr).calls = []
      ∧ (redeemEndpoint cfg env st redeemId now token addr).statuses = [])
    ∧ (∀ (cfg : Config) (env : RedeemEnv) (st : Ledger) (redeemId : String)
        (now : Int) (token : String) (addr : Option String) (dft : String),
      getDefaultLightningAddress cfg = some dft → blankAddress addr →
      getLightningAddressToUse cfg addr = .ok dft
      ∧ (∃ rec, getRedemption (performRedemption cfg env st redeemId now token addr).ledger
              redeemId = some rec
          ∧ rec.lightningAddress = dft
          ∧ rec.usingDefaultAddress = true)
      ∧ ((performRedemption cfg env st redeemId now token addr).result.success = true →
          (performRedemption cfg env st redeemId now token addr).result.toAddr = some dft
          ∧ (performRedemption cfg env st redeemId now token addr).result.usingDefaultAddress
              = some true)) := by
  constructor
  · intro cfg env st redeemId now token addr hdef hblank
    have haddr := getLightningAddressToUse_blank_none cfg addr hdef hblank
    have hval := validateRedemptionRequest_addr_error cfg env st (some token) addr _ haddr
    refine ⟨hval.1, hval.2, ?_, ?_, ?_, ?_⟩ <;>
      simp [redeemEndpoint, hval.2]
  · intro cfg env st redeemId now token addr dft hdef hblank
    have haddr := getLightningAddressToUse_blank_default cfg addr dft hdef hblank
    have hflag := usingDefaultFlag_blank addr hblank
    obtain ⟨rec, hfind, hget, hla, hudf, hth, hca⟩ :=
      performRedemption_run cfg env st redeemId now token addr dft haddr
    refine ⟨haddr, ⟨rec, hget, hla, by rw [hudf, hflag]⟩, fun hs => ?_⟩
    cases hp : env.parseToken with
    | error e =>
        rw [performRedemption_parse_error_fails cfg env st redeemId now token addr e hp] at hs
        simp at hs
    | ok d =>
        have hfields := performRedemption_success_fields cfg env st redeemId now token addr
          dft d haddr hp hs
        exact ⟨hfields.2.1, by rw [hfields.2.2.1, hflag]⟩

theorem claim_default_address_witness :
    ("No Lightning address provided and no default Lightning address configured"
          ∈ (validateRedemptionRequest cfgNoDefault envW stEmpty (some "cashuAtok1") none).errors
      ∧ (validateRedemptionRequest cfgNoDefault envW stEmpty (some "cashuAtok1") none).valid = false
      ∧ (redeemEndpoint cfgNoDefault envW stEmpty "id1" 0 "cashuAtok1" none).rejected ≠ none
      ∧ (redeemEndpoint cfgNoDefault envW stEmpty "id1" 0 "cashuAtok1" none).ledger = stEmpty
      ∧ (redeemEndpoint cfgNoDefault envW stEmpty "id1" 0 "cashuAtok1" none).calls = []
      ∧ (redeemEndpoint cfgNoDefault envW stEmpty "id1" 0 "cashuAtok1" none).statuses = [])
    ∧ (getLightningAddressToUse cfgW (some "   ") = .ok "admin@example.org"
      ∧ (∃ rec, getRedemption (performRedemption cfgW envW stEmpty "id1" 0 "cashuAtok1"
              (some "   ")).ledger "id1" = some rec
          ∧ rec.lightningAddress = "admin@example.org"
          ∧ rec.usingDefaultAddress = true)
      ∧ ((performRedemption cfgW envW stEmpty "id1" 0 "cashuAtok1" (some "   ")).result.success = true →
          (performRedemption cfgW envW stEmpty "id1" 0 "cashuAtok1" (some "   ")).result.toAddr
              = some "admin@example.org"
          ∧ (performRedemption cfgW envW stEmpty "id1" 0 "cashuAtok1"
              (some "   ")).result.usingDefaultAddress = some true)) :=
  ⟨claim_default_address.1 cfgNoDefault envW stEmpty "id1" 0 "cashuAtok1" none rfl (Or.inl rfl),
   claim_default_address.2 cfgW envW stEmpty "id1" 0 "cashuAtok1" (some "   ")
     "admin@example.org" rfl (Or.inr ⟨"   ", rfl, rfl⟩)⟩

end CashuRedeem
